import Mathlib

/-
Verification of the SSR styles plugin
(src/packages/vite/src/plugins/ssr-styles.ts).

The plugin is shallowly embedded: plain data flows become Lean functions,
the mutable per-build state (cssMap, idRefMap, warnCache) becomes explicit
state passing, and external collaborators (the rollup resolver, the mlly
static-import scanner, the ufo query parser, and the pathe `relative`
helper) are abstracted as function parameters, matching the spec, which
lists them as interfaces only.  The `filename` helper from pathe/utils is
embedded faithfully, including its regex semantics, because the repository
code wraps it and the spec states properties about the wrapper.
-/

namespace SSRStyles

/-- Component mode, from the `@nuxt/schema` Component type
(`mode?: 'client' | 'server' | 'all'`). -/
inductive Mode where
  | client
  | server
  | all
deriving DecidableEq, Repr

/-- Component descriptor: the fields of `@nuxt/schema` Component that the
plugin reads (filePath, pascalName, mode, island).  `island?: boolean` is
modelled with JS truthiness collapsed to a Bool. -/
structure Component where
  filePath : String
  pascalName : String
  mode : Option Mode
  island : Bool
deriving DecidableEq, Repr

/-- Embeds ssr-styles.ts lines 33-37: the `islands` list computed once at
plugin construction:
`options.components.filter(component => component.island ||
  (component.mode === 'server' && !options.components.some(c =>
    c.pascalName === component.pascalName && c.mode === 'client')))`. -/
def islands (components : List Component) : List Component :=
  components.filter fun component =>
    component.island ||
      (decide (component.mode = some Mode.server) &&
        !(components.any fun c =>
          c.pascalName == component.pascalName && decide (c.mode = some Mode.client)))

/-- The `shouldInline` option (line 16):
`shouldInline?: ((id?: string) => boolean) | boolean`.  `undef` is the
option left undefined. -/
inductive ShouldInline where
  | undef : ShouldInline
  | bool : Bool → ShouldInline
  | pred : (Option String → Bool) → ShouldInline

/-- Embeds the guard on line 46:
`options.shouldInline === false || (typeof options.shouldInline ===
'function' && !options.shouldInline(importer))` — true means the
resolveId handler returns early without suppressing side effects. -/
def shouldInlineBlocksResolve : ShouldInline → Option String → Bool
  | ShouldInline.bool false, _ => true
  | ShouldInline.pred f, importer => !(f importer)
  | _, _ => false

/-- Embeds the guard on line 187 inside `transform`:
`options.shouldInline === false || (typeof options.shouldInline ===
'function' && !options.shouldInline(id))` — true means the non-island
inlining check makes the transform skip. -/
def inlineDisallowedFor : ShouldInline → String → Bool
  | ShouldInline.bool false, _ => true
  | ShouldInline.pred f, id => !(f (some id))
  | _, _ => false

/-- The resolved-module record returned by the host resolver; only the
fields the plugin touches are kept (`id`, `moduleSideEffects`). -/
structure ResolvedModule where
  id : String
  moduleSideEffects : Bool
deriving DecidableEq, Repr

/-- Embeds `String.prototype.endsWith` structurally (suffix test), used
instead of the builtin so that concrete evaluation reduces in the kernel. -/
def strEndsWith (s suffix : String) : Bool :=
  List.isSuffixOf suffix.data s.data

/-- Embeds the `resolveId.handler` of the plugin (lines 41-59).  The host
resolver `this.resolve` is the `resolver` parameter; `isCSS` abstracts the
`isCSS` utility imported from `../utils` (not part of the shown sources).
Returning `none` models both the early return and a failed resolution. -/
def resolveIdHandler (si : ShouldInline) (isCSS : String → Bool)
    (resolver : String → Option String → Option ResolvedModule)
    (id : String) (importer : Option String) : Option ResolvedModule :=
  if shouldInlineBlocksResolve si importer then none
  else if id == "#build/css" || strEndsWith id ".vue" || isCSS id then
    match resolver id importer with
    | some res => some { res with moduleSideEffects := false }
    | none => none
  else none

/-- Character class of path separators in the pathe FILENAME_RE regex. -/
def isSep (c : Char) : Bool :=
  c == '/' || c == '\\'

/-- Embeds `name.replace(/\?.+$/, '')` (line 249): from the leftmost `?`
that is followed by one or more non-newline characters reaching the end of
the string, everything is removed (regex `.` does not match a newline, so
a newline after the `?` prevents the match at that position). -/
def stripQuery : List Char → List Char
  | [] => []
  | c :: rest =>
    if c == '?' && !rest.isEmpty && rest.all (fun d => !(d == '\n')) then []
    else c :: stripQuery rest

/-- The longest separator-free suffix of the string (empty when the
string ends with a separator or is empty). -/
def lastSegment (s : List Char) : List Char :=
  (s.reverse.takeWhile (fun c => !(isSep c))).reverse

/-- Splits the string at its last dot: `some (before, ext)` with the
string equal to `before ++ dot ++ ext` and `ext` dot-free, or `none` when
the string has no dot. -/
def lastDotSplit (s : List Char) : Option (List Char × List Char) :=
  let r := s.reverse
  let ext := r.takeWhile (fun c => !(c == '.'))
  if ext.length == r.length then none
  else some ((r.drop (ext.length + 1)).reverse, ext.reverse)

/-- Embeds `filename` from pathe/utils (imported as `_filename` on line
5): `path.match(FILENAME_RE)?.[2]` with
`FILENAME_RE = /(^|[\\/])([^\\/]+?)(?=(\.[^.]+)?$)/`.  Group 2 starts at
the string start or right after a separator (the leftmost viable anchor
wins) and is lazy, and the lookahead tail `\.[^.]+` may span separators,
because `[^.]` also matches them.  A dot can therefore end group 2 exactly
when it is the last dot of the whole string and is followed by a nonempty
tail; the lazy group prefers that cut, and the leftmost anchor able to
reach it is the start of the separator-free run ending at that dot.  Hence
the match is: the separator-free run just before the last dot, when such a
dot with a nonempty tail exists and that run is nonempty (every earlier
anchor fails: its group would have to cross a separator, and only the last
segment can use the empty-lookahead alternative); otherwise the last
segment of the string, when nonempty (group 2 runs to the end); otherwise
there is no match (JS `undefined`, here `none`). -/
def patheFilename (path : List Char) : Option (List Char) :=
  let lastSeg := lastSegment path
  match lastDotSplit path with
  | some (before, ext) =>
    if !ext.isEmpty && !(lastSegment before).isEmpty then some (lastSegment before)
    else if lastSeg.isEmpty then none else some lastSeg
  | none => if lastSeg.isEmpty then none else some lastSeg

/-- Embeds the local `filename` helper (lines 248-250):
`_filename(name.replace(/\?.+$/, ''))`. -/
def filename (name : String) : Option String :=
  (patheFilename (stripQuery name.data)).map String.mk

/-- Stringification of the `filename` result inside a JS template literal:
`undefined` prints as the string "undefined". -/
def filenameText (name : String) : String :=
  (filename name).getD "undefined"

/-- The per-module record stored in `cssMap` (line 27):
`{ files: string[], inBundle?: boolean }`. -/
structure StyleRecord where
  files : List String
  inBundle : Option Bool
deriving DecidableEq, Repr

/-- JS object assignment `m[k] = v` on a string-keyed object modelled as an
insertion-ordered association list: an existing key is overwritten in
place, a new key is appended at the end. -/
def setAssoc (m : List (String × α)) (k : String) (v : α) : List (String × α) :=
  if (m.lookup k).isSome then
    m.map fun p => if p.1 == k then (k, v) else p
  else m ++ [(k, v)]

/-- JS `m[k] ||= new Set()` on the clientCSSMap object: inserts an empty
set when the key is absent (an existing Set is an object, hence truthy,
and is kept). -/
def ensureKey (m : List (String × List String)) (k : String) : List (String × List String) :=
  if (m.lookup k).isSome then m else m ++ [(k, [])]

/-- The chunk shape read by `renderChunk`: `chunk.facadeModuleId`
(string or null) and `chunk.moduleIds`. -/
structure Chunk where
  facadeModuleId : Option String
  moduleIds : List String
deriving DecidableEq, Repr

/-- Embeds line 117:
`[chunk.facadeModuleId, ...chunk.moduleIds].filter(Boolean)` — null and
empty strings are dropped by the Boolean filter. -/
def chunkModuleIds (chunk : Chunk) : List String :=
  (chunk.facadeModuleId.toList ++ chunk.moduleIds).filter fun m => !(m == "")

/-- JS keyed record update `m[k] = f(m[k])` on a string-keyed object
modelled as an association list: the value stored under the key is
replaced in place, and a map without the key is unchanged (this mirrors
the guard `if (relativePath in cssMap)`). -/
def updateRecord (m : List (String × StyleRecord)) (k : String)
    (f : StyleRecord → StyleRecord) : List (String × StyleRecord) :=
  match m with
  | [] => []
  | (a, r) :: t =>
    if a == k then (a, f r) :: updateRecord t k f
    else (a, r) :: updateRecord t k f

/-- Embeds the per-module-id body of the server branch of `renderChunk`
(lines 139-142): when the build-root-relative path of the module id is a
key of `cssMap`, the record gets
`inBundle = inBundle ?? ((isVue(moduleId) && !!relativeToSrcDir(moduleId)) || isEntry)`.
`relOf` abstracts `relativeToSrcDir` (pathe `relative`), `isVue` abstracts
the utility from `../utils`. -/
def observeModuleId (relOf : String → String) (isVue : String → Bool) (isEntry : Bool)
    (cssMap : List (String × StyleRecord)) (moduleId : String) :
    List (String × StyleRecord) :=
  updateRecord cssMap (relOf moduleId) fun rec =>
    { rec with
      inBundle := some (rec.inBundle.getD ((isVue moduleId && !(relOf moduleId == "")) || isEntry)) }

/-- The effect of one `renderChunk` call (server mode) on `cssMap`: the
loop of lines 117-143 with the client branch skipped. `isEntry` is
`chunk.facadeModuleId === options.entry` (line 113). -/
def renderChunkServer (relOf : String → String) (isVue : String → Bool) (entry : String)
    (cssMap : List (String × StyleRecord)) (chunk : Chunk) :
    List (String × StyleRecord) :=
  let isEntry := chunk.facadeModuleId == some entry
  (chunkModuleIds chunk).foldl (observeModuleId relOf isVue isEntry) cssMap

/-- The effect of one `renderChunk` call in server mode on the
clientCSSMap object: only lines 113-116 touch it
(`if (isEntry) { options.clientCSSMap[chunk.facadeModuleId!] ||= new Set() }`);
the per-module loop takes the server branch (lines 139-142), which reads
and writes `cssMap` only.  In the guarded branch `chunk.facadeModuleId`
equals `options.entry`, so the ensured key is the entry id. -/
def renderChunkClientMapServerMode (entry : String)
    (clientCSSMap : List (String × List String)) (chunk : Chunk) :
    List (String × List String) :=
  if chunk.facadeModuleId == some entry then ensureKey clientCSSMap entry
  else clientCSSMap

/-- One chunk emission requested via `this.emitFile({ type: 'chunk', name,
id })` (lines 208-212 and 235-239): the generated chunk name and the id the
chunk is built from. -/
structure Emission where
  name : String
  chunkId : String
deriving DecidableEq, Repr

/-- The plugin-instance state mutated by the server-pass `transform`:
`cssMap` and `idRefMap` (lines 27-28), the `warnCache` set (line 32), plus
the observable traces of warnings (`this.warn`) and chunk emissions
(`this.emitFile`), in emission order for the whole build. -/
structure BuildState where
  cssMap : List (String × StyleRecord)
  idRefMap : List (String × String)
  warnCache : List String
  warnTrace : List (String × String)
  emissions : List Emission
deriving DecidableEq, Repr

/-- Empty state at plugin construction (lines 27-32). -/
def initialBuildState : BuildState :=
  { cssMap := [], idRefMap := [], warnCache := [], warnTrace := [], emissions := [] }

/-- The collaborators and construction-time data the server-pass
`transform` consults.  `islands` is the precomputed island list,
`clientCSSMap` the graph populated by the client pass, `resolve` the host
resolver (`this.resolve`, returning the resolved id), `staticImports` the
mlly scanner (`findStaticImports`, returning the import specifiers),
`specQueryType` the ufo `parseQuery(i.specifier).type` value, and
`relToSrcDir` the `relativeToSrcDir` helper (line 30). -/
structure TransformCtx where
  islands : List Component
  clientCSSMap : List (String × List String)
  shouldInline : ShouldInline
  resolve : String → Option String → Option String
  staticImports : String → List String
  specQueryType : String → Option String
  relToSrcDir : String → String

/-- Embeds `await this.resolve(x) ?? await this.resolve(x, id)` (lines
198-199 and 157-158): a one-argument resolution, falling back to the
importer-relative one. -/
def resolve2 (resolve : String → Option String → Option String)
    (spec : String) (importer : String) : Option String :=
  match resolve spec none with
  | some r => some r
  | none => resolve spec (some importer)

/-- Warning text of lines 203 and 229 (backticks around the file name are
left out): `[nuxt] Cannot extract styles for X. Its styles will not be
inlined when server-rendering.` -/
def warnMsg (file : String) : String :=
  "[nuxt] Cannot extract styles for " ++ file ++ ". Its styles will not be inlined when server-rendering."

/-- Chunk name of lines 210 and 237:
`${filename(id)}-styles-${++styleCtr}.mjs`. -/
def chunkName (id : String) (ctr : Nat) : String :=
  filenameText id ++ "-styles-" ++ toString ctr ++ ".mjs"

/-- The state local to one `transform` call threaded through the two
loops: the build state, the refs pushed into `idMap.files` so far, the
`emittedIds` set (line 193) and the `styleCtr` counter (line 195). -/
structure LoopState where
  st : BuildState
  files : List String
  emittedIds : List String
  styleCtr : Nat

/-- Embeds the body of the graph loop of `transform` (lines 197-216), for
one CSS file id from the ClientCSSGraph: resolve the raw id and its
`?inline&used` variant (warn once per raw id and skip on failure), skip if
the raw id is in `emittedIds`, otherwise emit a chunk, record the ref in
`idRefMap` and push it onto the record files.  The emitted ref is modelled
as `ref_` followed by the global emission index.  Note the source never
adds to `emittedIds`. -/
def processGraphFile (ctx : TransformCtx) (id : String) (ls : LoopState) (file : String) :
    LoopState :=
  let resolved := resolve2 ctx.resolve file id
  let res := resolve2 ctx.resolve (file ++ "?inline&used") id
  if resolved.isNone || res.isNone then
    if ls.st.warnCache.contains file then ls
    else { ls with st := { ls.st with
      warnCache := ls.st.warnCache ++ [file],
      warnTrace := ls.st.warnTrace ++ [(file, warnMsg file)] } }
  else if ls.emittedIds.contains file then ls
  else
    let ref := "ref_" ++ toString ls.st.emissions.length
    { st := { ls.st with
        emissions := ls.st.emissions ++ [⟨chunkName id (ls.styleCtr + 1), file ++ "?inline&used"⟩],
        idRefMap := setAssoc ls.st.idRefMap (ctx.relToSrcDir file) ref },
      files := ls.files ++ [ref],
      emittedIds := ls.emittedIds,
      styleCtr := ls.styleCtr + 1 }

/-- Embeds lines 226-242 of the static-import loop of `transform`, acting
on a successfully resolved specifier: verify the `?inline&used` variant of
the resolved id also resolves, warning once per resolved id otherwise;
skip if the resolved id is in `emittedIds`; otherwise emit a chunk and
record the ref.  The source never adds to `emittedIds` here either. -/
def processResolvedImport (ctx : TransformCtx) (id specifier rid : String) (ls : LoopState) :
    LoopState :=
  if (ctx.resolve (rid ++ "?inline&used") none).isNone then
    if ls.st.warnCache.contains rid then ls
    else { ls with st := { ls.st with
      warnCache := ls.st.warnCache ++ [rid],
      warnTrace := ls.st.warnTrace ++ [(rid, warnMsg specifier)] } }
  else if ls.emittedIds.contains rid then ls
  else
    let ref := "ref_" ++ toString ls.st.emissions.length
    { st := { ls.st with
        emissions := ls.st.emissions ++ [⟨chunkName id (ls.styleCtr + 1), rid ++ "?inline&used"⟩],
        idRefMap := setAssoc ls.st.idRefMap (ctx.relToSrcDir rid) ref },
      files := ls.files ++ [ref],
      emittedIds := ls.emittedIds,
      styleCtr := ls.styleCtr + 1 }

/-- Embeds the body of the static-import loop of `transform` (lines
220-243), for one import specifier: skip unless the specifier is
style-typed or ends in `.css` (line 222); resolve it importer-relative
(line 224, silently skip on failure); then proceed as
`processResolvedImport`. -/
def processStaticImport (ctx : TransformCtx) (id : String) (ls : LoopState) (specifier : String) :
    LoopState :=
  if ctx.specQueryType specifier != some "style" && !(strEndsWith specifier ".css") then ls
  else
    match ctx.resolve specifier (some id) with
    | none => ls
    | some rid => processResolvedImport ctx id specifier rid ls

/-- Membership test of lines 181 and 186:
`islands.some(c => c.filePath === pathname)`. -/
def isIslandPath (islandList : List Component) (pathname : String) : Bool :=
  islandList.any fun c => c.filePath == pathname

/-- Test of line 218, `SUPPORTED_FILES_RE.test(pathname)` with
`SUPPORTED_FILES_RE = /\.(?:vue|(?:[cm]?j|t)sx?)$/` (line 24): the
pathname ends with one of the listed extensions. -/
def supportedFile (pathname : String) : Bool :=
  [".vue", ".js", ".jsx", ".cjs", ".cjsx", ".mjs", ".mjsx", ".ts", ".tsx"].any
    fun e => strEndsWith pathname e

/-- Embeds the server-mode part of `transform` (lines 179-244).  `id` and
`code` are the hook arguments; `pathname` is
`parseURL(decodeURIComponent(pathToFileURL(id).href)).pathname` and
`qMacro`, `qNuxtComponent` the truthiness of `query.macro` and
`query.nuxt_component` from `parseQuery(search)` (lines 179-184), all
produced by external URL helpers and therefore taken as inputs.  A `none`
result is an early return before the record creation of line 191 (the
guards of lines 181, 184 and 186-188); `some` carries the updated build
state. -/
def transformServer (ctx : TransformCtx) (st : BuildState)
    (id code pathname : String) (qMacro qNuxtComponent : Bool) : Option BuildState :=
  if !((ctx.clientCSSMap.lookup id).isSome || isIslandPath ctx.islands pathname) then none
  else if qMacro || qNuxtComponent then none
  else if !(isIslandPath ctx.islands pathname) && inlineDisallowedFor ctx.shouldInline id then none
  else
    let relativeId := ctx.relToSrcDir id
    let idMap := (st.cssMap.lookup relativeId).getD { files := [], inBundle := none }
    let ids := (ctx.clientCSSMap.lookup id).getD []
    let ls0 : LoopState := { st := st, files := [], emittedIds := [], styleCtr := 0 }
    let ls1 := ids.foldl (processGraphFile ctx id) ls0
    let ls2 :=
      if supportedFile pathname then (ctx.staticImports code).foldl (processStaticImport ctx id) ls1
      else ls1
    some { ls2.st with
      cssMap := setAssoc ls2.st.cssMap relativeId
        { files := idMap.files ++ ls2.files, inBundle := idMap.inBundle } }

/-- One module fed to the server-pass `transform`: the hook arguments plus
the URL-derived values (see `transformServer`). -/
structure ModuleInput where
  id : String
  code : String
  pathname : String
  qMacro : Bool
  qNuxtComponent : Bool

/-- A whole server pass: the `transform` hook applied to a sequence of
modules, threading the plugin-instance state (a skipped module leaves the
state unchanged, as every early return happens before any mutation). -/
def runTransforms (ctx : TransformCtx) : BuildState → List ModuleInput → BuildState
  | st, [] => st
  | st, m :: rest =>
    runTransforms ctx ((transformServer ctx st m.id m.code m.pathname m.qMacro m.qNuxtComponent).getD st) rest

/-- The aggregate styles module emitted per consuming module (lines
82-89): its asset name `${fileName}-styles.mjs` and the ordered refs whose
final files it imports and re-exports as the default list. -/
structure Aggregate where
  name : String
  files : List String
deriving DecidableEq, Repr

/-- Embeds the `emitted` accumulation of `generateBundle` (lines 64-90):
the loop over `Object.entries(cssMap)` adds one aggregate per entry whose
`files` is nonempty and whose `inBundle` is truthy
(`if (!files.length || !inBundle) { continue }`). -/
def emittedEntries : List (String × StyleRecord) → List (String × Aggregate)
  | [] => []
  | (file, rec) :: rest =>
    if rec.files.isEmpty || rec.inBundle != some true then emittedEntries rest
    else (file, { name := filenameText file ++ "-styles.mjs", files := rec.files })
      :: emittedEntries rest

/-- The observable output of `generateBundle` in server mode (lines
61-110): the emitted aggregates, the keys added to
`options.chunksWithInlinedCSS` (lines 92-95), the entries of the final
`styles.mjs` directory module mapping each consuming module id to a loader
of its aggregate (lines 99-110, built from `Object.entries(emitted)`), and
the diagnostics emitted by the hook (none: the hook never warns). -/
structure GenerateBundleResult where
  emitted : List (String × Aggregate)
  chunksWithInlinedCSS : List String
  directory : List (String × Aggregate)
  warnings : List String
deriving DecidableEq, Repr

/-- Embeds `generateBundle` (server mode). -/
def generateBundle (cssMap : List (String × StyleRecord)) : GenerateBundleResult :=
  let emitted := emittedEntries cssMap
  { emitted := emitted
    chunksWithInlinedCSS := emitted.map Prod.fst
    directory := emitted
    warnings := [] }

/-- JS values occurring in the directory-module loader chain: a style
list, a module namespace object (with an optional default export holding a
style list), or undefined. -/
inductive JSVal where
  | list : List String → JSVal
  | nsObj : Option (List String) → JSVal
  | undefined : JSVal
deriving DecidableEq, Repr

/-- JS truthiness of those values: arrays and objects are truthy (an empty
array too), undefined is falsy. -/
def jsTruthy : JSVal → Bool
  | JSVal.list _ => true
  | JSVal.nsObj _ => true
  | JSVal.undefined => false

/-- Embeds line 105, `const interopDefault = r => r.default || r || []`:
the property access `r.default` yields undefined unless `r` is a namespace
object with a default export. -/
def interopDefault (r : JSVal) : JSVal :=
  let d := match r with
    | JSVal.nsObj (some l) => JSVal.list l
    | _ => JSVal.undefined
  if jsTruthy d then d else if jsTruthy r then r else JSVal.list []

/-- The value produced by invoking a directory-module loader for an
emitted aggregate: `import('./...').then(interopDefault)` where the
aggregate module default-exports its style list (lines 85-88, 107). -/
def loaderResult (agg : Aggregate) : JSVal :=
  interopDefault (JSVal.nsObj (some agg.files))

/-- A name made of characters that are neither a dot, a query marker nor a
path separator, and nonempty: such a name has no extension and no
directory part. -/
def plainName (s : String) : Bool :=
  !(s.data.isEmpty) && s.data.all fun c => !(c == '.' || c == '?' || c == '/' || c == '\\')

/-- Invariant of the warn-once mechanism: the identifiers warned about so
far are pairwise distinct and all present in the warnCache set. -/
def WarnInv (st : BuildState) : Prop :=
  (st.warnTrace.map Prod.fst).Nodup ∧ ∀ k ∈ st.warnTrace.map Prod.fst, k ∈ st.warnCache

/-- Concrete transform context exercising the claim-C1 scenario: the
module is a key of the ClientCSSGraph (with an empty set), everything
resolves, and the module code carries two identical static imports of the
same CSS file. -/
def ctxC1 : TransformCtx :=
  { islands := []
    clientCSSMap := [("m.vue", [])]
    shouldInline := ShouldInline.undef
    resolve := fun spec _ => some spec
    staticImports := fun _ => ["./a.css", "./a.css"]
    specQueryType := fun _ => none
    relToSrcDir := fun s => s }

/-- Concrete transform context exercising the claim-C5 scenario: one
island component and a configuration that disallows inlining for every
module id. -/
def ctxC5 : TransformCtx :=
  { islands := [{ filePath := "p", pascalName := "X", mode := some Mode.server, island := true }]
    clientCSSMap := []
    shouldInline := ShouldInline.bool false
    resolve := fun _ _ => none
    staticImports := fun _ => []
    specQueryType := fun _ => none
    relToSrcDir := fun s => s }

/- Theorems. -/

/-- List lookup distributes over append: the left list is consulted first. -/
theorem lookup_append {α : Type} (k : String) (l₁ l₂ : List (String × α)) :
    List.lookup k (l₁ ++ l₂)
      = match List.lookup k l₁ with
        | some v => some v
        | none => List.lookup k l₂ := by
  induction l₁ with
  | nil => simp [List.lookup]
  | cons p t ih =>
    obtain ⟨a, b⟩ := p
    by_cases h : (k == a) = true
    · simp [List.lookup, h]
    · simp only [Bool.not_eq_true] at h
      simp [List.lookup, h, ih]

/-- A list whose elements all satisfy the predicate is its own takeWhile. -/
theorem takeWhile_all {p : Char → Bool} :
    ∀ (l : List Char), (∀ c ∈ l, p c = true) → l.takeWhile p = l := by
  intro l
  induction l with
  | nil => intro _; rfl
  | cons c rest ih =>
    intro h
    simp [List.takeWhile, h c (List.mem_cons_self c rest),
      ih fun d hd => h d (List.mem_cons_of_mem c hd)]

/-- Query stripping leaves a string without a query marker unchanged. -/
theorem stripQuery_of_no_query (l : List Char) (h : ∀ c ∈ l, (c == '?') = false) :
    stripQuery l = l := by
  induction l with
  | nil => rfl
  | cons c rest ih =>
    simp [stripQuery, h c (List.mem_cons_self c rest),
      ih fun d hd => h d (List.mem_cons_of_mem c hd)]

/-- A string without separators is its own last segment. -/
theorem lastSegment_of_no_sep (l : List Char) (h : ∀ c ∈ l, isSep c = false) :
    lastSegment l = l := by
  unfold lastSegment
  rw [takeWhile_all l.reverse fun c hc => by
    simp [h c (List.mem_reverse.mp hc)]]
  exact l.reverse_reverse

/-- The last-dot split finds nothing in a dotless string. -/
theorem lastDotSplit_of_no_dot (b : List Char) (h : ∀ c ∈ b, (c == '.') = false) :
    lastDotSplit b = none := by
  have ht : List.takeWhile (fun c => !(c == '.')) b.reverse = b.reverse :=
    takeWhile_all b.reverse fun c hc => by simp [h c (List.mem_reverse.mp hc)]
  simp [lastDotSplit, ht]

/-- Regex corner cases of FILENAME_RE: the leftmost anchor can land on a
non-final path segment, because the extension lookahead `(\.[^.]+)?$`
spans separators — `[^.]` also matches them. -/
theorem patheFilename_crosses_segments :
    filename "foo.txt/bar" = some "foo" ∧ filename "a.b/" = some "a"
      ∧ filename "x/y.z/w" = some "y" ∧ filename "foo/" = none := by
  decide

/-- Claim C1 (code bug): in the server-pass transform, the `emittedIds`
set created on line 193 is tested (lines 207 and 234) but never added to,
so the skip for an already-emitted file can never fire.  Evaluating the
embedded transform on a module that statically imports the same CSS file
twice (context `ctxC1`) shows the file emitted twice and recorded twice in
the StyleRecord files, contradicting the claim that a file already emitted
for the consuming module is skipped. -/
theorem transform_records_duplicate_file :
    (transformServer ctxC1 initialBuildState "m.vue" "" "m.vue" false false).map
        (fun st => ((st.cssMap.lookup "m.vue").map StyleRecord.files, st.emissions.map Emission.chunkId))
      = some (some ["ref_0", "ref_1"], ["./a.css?inline&used", "./a.css?inline&used"]) := by
  decide

/-- Claim C3 (counterexample): the naming helper is not idempotent.  The
pathe regex strips exactly one trailing extension per application, so
`filename "a.b.c" = some "a.b"` while a second application yields
`some "a"`. -/
theorem filename_not_idempotent :
    ¬ ((filename "a.b.c").bind filename = filename "a.b.c") := by
  decide

/-- Claim C3 (amended): the helper is total (it returns an optional value
and never fails), and it is stable on plain names: whenever the result of
one application contains no dot, query marker or separator, a second
application returns it unchanged, so the double application collapses for
such inputs.  Full idempotence fails (see the counterexample) because each
application strips one further trailing extension. -/
theorem filename_stable (x y : String) (h : filename x = some y) (hp : plainName y = true) :
    filename y = some y ∧ (filename x).bind filename = filename x := by
  have hne : y.data.isEmpty = false := by
    have := (Bool.and_eq_true _ _).mp hp |>.1
    simpa using this
  have hall : ∀ c ∈ y.data, (c == '.' || c == '?' || c == '/' || c == '\\') = false := by
    intro c hc
    have := (Bool.and_eq_true _ _).mp hp |>.2
    rw [List.all_eq_true] at this
    simpa using this c hc
  have hq : stripQuery y.data = y.data := by
    apply stripQuery_of_no_query
    intro c hc
    have := hall c hc
    simp only [Bool.or_eq_false_iff] at this
    exact this.1.1.2
  have hs : lastSegment y.data = y.data := by
    apply lastSegment_of_no_sep
    intro c hc
    have := hall c hc
    simp only [Bool.or_eq_false_iff] at this
    simp [isSep, this.1.2, this.2]
  have hd : lastDotSplit y.data = none := by
    apply lastDotSplit_of_no_dot
    intro c hc
    have := hall c hc
    simp only [Bool.or_eq_false_iff] at this
    exact this.1.1.1
  have h1 : filename y = some y := by
    rw [filename, hq]
    simp only [patheFilename, hd, hs, hne]
    rfl
  refine ⟨h1, ?_⟩
  rw [h, Option.some_bind, h1]

/-- Witness for the amended claim C3 at a concrete input. -/
theorem filename_stable_witness :
    filename "foo" = some "foo" ∧ (filename "foo.css").bind filename = filename "foo.css" :=
  filename_stable "foo.css" "foo" (by decide) (by decide)

/-- Claim C4: a component belongs to the island list computed at plugin
construction if and only if it occurs in the component list and either is
explicitly flagged as an island, or has server mode while no other
component of the list shares its pascalName with client mode.  The list is
a pure function of the construction-time component list (the source binds
it as a `const` on lines 33-37 and never mutates it). -/
theorem islands_mem_iff (components : List Component) (c : Component) :
    c ∈ islands components ↔
      c ∈ components ∧
        (c.island = true ∨
          (c.mode = some Mode.server ∧
            ¬ ∃ o, o ∈ components ∧ o ≠ c ∧ o.pascalName = c.pascalName
              ∧ o.mode = some Mode.client)) := by
  rw [islands, List.mem_filter]
  constructor
  · rintro ⟨hm, hp⟩
    refine ⟨hm, ?_⟩
    rcases (Bool.or_eq_true _ _).mp hp with hi | hs
    · exact Or.inl hi
    · rw [Bool.and_eq_true] at hs
      obtain ⟨h1, h2⟩ := hs
      have hmode := of_decide_eq_true h1
      refine Or.inr ⟨hmode, ?_⟩
      rintro ⟨o, ho, _, hpn, hoc⟩
      rw [Bool.not_eq_true'] at h2
      have hfalse : ¬ ((o.pascalName == c.pascalName
          && decide (o.mode = some Mode.client)) = true) := by
        intro hb
        have hany : (components.any fun x =>
            x.pascalName == c.pascalName && decide (x.mode = some Mode.client)) = true :=
          List.any_eq_true.mpr ⟨o, ho, hb⟩
        rw [h2] at hany
        exact Bool.false_ne_true hany
      exact hfalse (by simp [hpn, hoc])
  · rintro ⟨hm, h⟩
    refine ⟨hm, ?_⟩
    rcases h with hi | ⟨hs, hno⟩
    · simp [hi]
    · rw [Bool.or_eq_true]
      refine Or.inr ?_
      rw [Bool.and_eq_true]
      refine ⟨decide_eq_true hs, ?_⟩
      rw [Bool.not_eq_true']
      rcases ha : components.any
          (fun o => o.pascalName == c.pascalName && decide (o.mode = some Mode.client)) with _ | _
      · rfl
      · obtain ⟨o, ho, hb⟩ := List.any_eq_true.mp ha
        rw [Bool.and_eq_true] at hb
        have hpn : o.pascalName = c.pascalName := by simpa using hb.1
        have hoc : o.mode = some Mode.client := of_decide_eq_true hb.2
        have hne : o ≠ c := by
          intro he
          rw [he, hs] at hoc
          exact Option.some.inj hoc |> fun hx => Mode.noConfusion hx
        exact absurd ⟨o, ho, hne, hpn, hoc⟩ hno

/-- Claim C5: a module whose decoded pathname matches an island filePath
is processed by the server-pass transform (provided its query does not
mark it as a macro or a component wrapper) whatever the shouldInline
configuration says, while a non-island module is skipped entirely whenever
the shouldInline configuration disallows its id. -/
theorem transform_island_bypasses_shouldInline (ctx : TransformCtx) (st : BuildState)
    (id code pathname : String) :
    (isIslandPath ctx.islands pathname = true →
      (transformServer ctx st id code pathname false false).isSome = true)
      ∧ (isIslandPath ctx.islands pathname = false →
        inlineDisallowedFor ctx.shouldInline id = true →
        ∀ qMacro qNuxtComponent,
          transformServer ctx st id code pathname qMacro qNuxtComponent = none) := by
  constructor
  · intro h
    simp [transformServer, h]
  · intro h hd qMacro qNuxtComponent
    simp [transformServer, h, hd]

/-- Witness for claim C5 at a concrete input: an island module is
processed although shouldInline is the constant false. -/
theorem transform_island_bypasses_shouldInline_witness :
    (transformServer ctxC5 initialBuildState "i" "" "p" false false).isSome = true :=
  (transform_island_bypasses_shouldInline ctxC5 initialBuildState "i" "" "p").1 (by decide)

/-- Claim C10: an undefined shouldInline option behaves exactly like the
constant true: the resolveId handler clears moduleSideEffects for every
resolvable target module (the virtual css module, .vue files and CSS
files) regardless of importer, the handler agrees with the Always
configuration on every input, and the non-island inlining check of the
server-pass transform never causes a skip. -/
theorem shouldInline_undefined_is_always (isCSS : String → Bool)
    (resolver : String → Option String → Option ResolvedModule)
    (id : String) (importer : Option String) (res : ResolvedModule)
    (htarget : (id == "#build/css" || strEndsWith id ".vue" || isCSS id) = true)
    (hres : resolver id importer = some res) :
    resolveIdHandler ShouldInline.undef isCSS resolver id importer
        = some { res with moduleSideEffects := false }
      ∧ (∀ id2 importer2, resolveIdHandler ShouldInline.undef isCSS resolver id2 importer2
          = resolveIdHandler (ShouldInline.bool true) isCSS resolver id2 importer2)
      ∧ inlineDisallowedFor ShouldInline.undef id = false := by
  refine ⟨?_, ?_, rfl⟩
  · simp [resolveIdHandler, shouldInlineBlocksResolve, htarget, hres]
  · intro id2 importer2
    simp [resolveIdHandler, shouldInlineBlocksResolve]

/-- Witness for claim C10 at a concrete input. -/
theorem shouldInline_undefined_is_always_witness :
    resolveIdHandler ShouldInline.undef (fun _ => false) (fun s _ => some ⟨s, true⟩)
      "#build/css" none = some ⟨"#build/css", false⟩ :=
  (shouldInline_undefined_is_always (fun _ => false) (fun s _ => some ⟨s, true⟩)
    "#build/css" none ⟨"#build/css", true⟩ (by decide) rfl).1

/-- Claim C8 (counterexample): the server-mode chunk-rendering step is not
read-only on the ClientCSSGraph.  Lines 113-116 run in both modes, so when
the server pass renders the entry chunk and the graph lacks a key for the
entry module, an empty entry is inserted: processing the entry chunk over
an empty graph yields a graph with one key, so keys before and after the
call differ. -/
theorem renderChunk_server_mutates_graph :
    renderChunkClientMapServerMode "e" [] { facadeModuleId := some "e", moduleIds := [] }
      ≠ [] := by
  decide

/-- Claim C8 (amended): in server mode, the chunk-rendering step performs
at most one mutation of the ClientCSSGraph: when the rendered chunk is the
entry chunk and the entry module has no graph entry yet, an empty entry is
inserted for it.  Every non-entry chunk leaves the graph untouched, an
already-present entry key keeps the graph untouched, every existing
binding is preserved exactly, and no key other than the entry id is ever
affected. -/
theorem renderChunk_server_graph_effect (entry : String)
    (m : List (String × List String)) (chunk : Chunk) :
    (chunk.facadeModuleId ≠ some entry → renderChunkClientMapServerMode entry m chunk = m)
      ∧ ((m.lookup entry).isSome = true → renderChunkClientMapServerMode entry m chunk = m)
      ∧ (∀ k v, m.lookup k = some v →
        (renderChunkClientMapServerMode entry m chunk).lookup k = some v)
      ∧ (∀ k, k ≠ entry →
        (renderChunkClientMapServerMode entry m chunk).lookup k = m.lookup k) := by
  refine ⟨?_, ?_, ?_, ?_⟩
  · intro h
    have hb : (chunk.facadeModuleId == some entry) = false := by
      simpa using h
    simp [renderChunkClientMapServerMode, hb]
  · intro h
    simp [renderChunkClientMapServerMode, ensureKey, h]
  · intro k v hv
    unfold renderChunkClientMapServerMode ensureKey
    rcases hf : (chunk.facadeModuleId == some entry) with _ | _
    · simpa using hv
    · simp only [if_true]
      rcases hl : (m.lookup entry).isSome with _ | _
      · simp only [hl, Bool.false_eq_true, if_false, lookup_append, hv]
      · simp [hl, hv]
  · intro k hk
    unfold renderChunkClientMapServerMode ensureKey
    rcases hf : (chunk.facadeModuleId == some entry) with _ | _
    · simp
    · simp only [if_true]
      rcases hl : (m.lookup entry).isSome with _ | _
      · rw [if_neg (by simp [hl]), lookup_append]
        have hke : (k == entry) = false := by simpa using hk
        cases hcase : m.lookup k with
        | none => simp [List.lookup, hke]
        | some v => simp
      · simp [hl]

/-- Witness for the amended claim C8 at a concrete input: the entry chunk
leaves a graph that already has the entry key unchanged. -/
theorem renderChunk_server_graph_effect_witness :
    renderChunkClientMapServerMode "e" [("e", [])] { facadeModuleId := some "e", moduleIds := [] }
      = [("e", [])] :=
  (renderChunk_server_graph_effect "e" [("e", [])]
    { facadeModuleId := some "e", moduleIds := [] }).2.1 (by decide)

/-- Lookup in the emitted aggregates is none for a key outside the cssMap
keys (the filterMap only keeps cssMap keys). -/
theorem lookup_emittedEntries_not_mem (t : List (String × StyleRecord)) (k : String)
    (h : k ∉ t.map Prod.fst) :
    (emittedEntries t).lookup k = none := by
  induction t with
  | nil => rfl
  | cons p s ih =>
    obtain ⟨a, r⟩ := p
    simp only [List.map_cons, List.mem_cons] at h
    push_neg at h
    have hka : (k == a) = false := by simpa using h.1
    rw [emittedEntries]
    by_cases hq : (r.files.isEmpty || r.inBundle != some true) = true
    · rw [if_pos hq]
      exact ih h.2
    · rw [if_neg hq, List.lookup_cons, hka]
      exact ih h.2

/-- Lookup in the emitted aggregates of `generateBundle`, for a cssMap
without duplicate keys (a JS object cannot carry duplicates): the entry is
present exactly when the looked-up record qualifies, and then carries the
record files in order. -/
theorem lookup_emittedEntries (cssMap : List (String × StyleRecord)) (k : String)
    (hnd : (cssMap.map Prod.fst).Nodup) :
    (emittedEntries cssMap).lookup k
      = (cssMap.lookup k).bind fun rec =>
          if rec.files.isEmpty || rec.inBundle != some true then none
          else some { name := filenameText k ++ "-styles.mjs", files := rec.files } := by
  induction cssMap with
  | nil => rfl
  | cons p t ih =>
    obtain ⟨a, r⟩ := p
    rw [List.map_cons, List.nodup_cons] at hnd
    obtain ⟨hna, hnd'⟩ := hnd
    rw [emittedEntries, List.lookup_cons]
    by_cases hk : (k == a) = true
    · have hk' : k = a := by simpa using hk
      subst hk'
      rw [hk]
      by_cases hq : (r.files.isEmpty || r.inBundle != some true) = true
      · rw [if_pos hq]
        rw [lookup_emittedEntries_not_mem t k hna]
        rw [Option.some_bind, if_pos hq]
      · rw [if_neg hq, List.lookup_cons, hk]
        rw [Option.some_bind, if_neg hq]
    · have hk' : (k == a) = false := by simpa using hk
      rw [hk']
      by_cases hq : (r.files.isEmpty || r.inBundle != some true) = true
      · rw [if_pos hq]
        exact ih hnd'
      · rw [if_neg hq, List.lookup_cons, hk']
        exact ih hnd'

/-- Claim C2: in server mode, `generateBundle` emits an aggregate styles
module and a directory entry for a consuming module id exactly when the
StyleRecord for that id has a nonempty files sequence and inBundle equal
to true; a record failing either condition yields no aggregate, no
directory entry (the directory is built from exactly the emitted keys),
and the hook emits no warning at all. -/
theorem generateBundle_emits_iff (cssMap : List (String × StyleRecord)) (k : String)
    (hnd : (cssMap.map Prod.fst).Nodup) :
    (((generateBundle cssMap).emitted.lookup k).isSome
        ↔ ∃ rec, cssMap.lookup k = some rec ∧ rec.files ≠ [] ∧ rec.inBundle = some true)
      ∧ (generateBundle cssMap).directory = (generateBundle cssMap).emitted
      ∧ (generateBundle cssMap).warnings = [] := by
  refine ⟨?_, rfl, rfl⟩
  have hgb : (generateBundle cssMap).emitted = emittedEntries cssMap := rfl
  rw [hgb, lookup_emittedEntries cssMap k hnd]
  cases h : cssMap.lookup k with
  | none =>
    simp
  | some rec =>
    rw [Option.some_bind]
    by_cases hq : (rec.files.isEmpty || rec.inBundle != some true) = true
    · rw [if_pos hq]
      simp only [Option.isSome_none, Bool.false_eq_true, false_iff]
      rintro ⟨rec2, he, hf, hb⟩
      have he' : rec2 = rec := (Option.some.inj he).symm
      rcases (Bool.or_eq_true _ _).mp hq with h1 | h2
      · exact hf (by rw [he']; simpa using h1)
      · exact (show rec2.inBundle ≠ some true by rw [he']; simpa using h2) hb
    · rw [if_neg hq]
      rw [Bool.not_eq_true, Bool.or_eq_false_iff] at hq
      obtain ⟨h1, h2⟩ := hq
      simp only [Option.isSome_some, true_iff]
      refine ⟨rec, rfl, ?_, ?_⟩
      · intro hf
        rw [hf] at h1
        simp at h1
      · simpa using h2

/-- Witness for claim C2 at a concrete input: a record with one file and
confirmed bundle membership receives an aggregate. -/
theorem generateBundle_emits_iff_witness :
    ((generateBundle [("a", { files := ["r"], inBundle := some true })]).emitted.lookup "a").isSome
      = true :=
  (generateBundle_emits_iff [("a", { files := ["r"], inBundle := some true })] "a"
    (by decide)).1.mpr ⟨{ files := ["r"], inBundle := some true }, rfl, by decide, rfl⟩

/-- Claim C9 (counterexample): a consuming-module id whose StyleRecord has
zero recorded styles gets no entry at all in the emitted directory module
(line 67 skips records with empty files before anything is emitted), so
its loader cannot yield an empty list: looking the id up in the directory
mapping produces nothing (undefined), not a loader. -/
theorem directory_omits_empty_record :
    (generateBundle [("m", { files := [], inBundle := some true })]).directory.lookup "m"
      = none := by
  decide

/-- Claim C9 (amended): ids with zero recorded styles are absent from the
emitted directory mapping (a lookup by the surrounding system yields
undefined rather than a loader), and every loader that is present belongs
to a record with nonempty files: invoking it resolves the aggregate and
unwraps its default export to precisely the recorded nonempty style list —
never null, undefined or an error. -/
theorem directory_loader_semantics (cssMap : List (String × StyleRecord)) (k : String)
    (hnd : (cssMap.map Prod.fst).Nodup) :
    (∀ rec, cssMap.lookup k = some rec → rec.files = [] →
      (generateBundle cssMap).directory.lookup k = none)
      ∧ (∀ agg, (generateBundle cssMap).directory.lookup k = some agg →
        loaderResult agg = JSVal.list agg.files ∧ agg.files ≠ []) := by
  have hgb : (generateBundle cssMap).directory = emittedEntries cssMap := rfl
  rw [hgb, lookup_emittedEntries cssMap k hnd]
  constructor
  · intro rec hrec hemp
    rw [hrec, Option.some_bind, if_pos]
    rw [Bool.or_eq_true]
    exact Or.inl (by simp [hemp])
  · intro agg hagg
    cases h : cssMap.lookup k with
    | none =>
      rw [h, Option.none_bind] at hagg
      exact absurd hagg (by simp)
    | some rec =>
      rw [h, Option.some_bind] at hagg
      by_cases hq : (rec.files.isEmpty || rec.inBundle != some true) = true
      · rw [if_pos hq] at hagg
        exact absurd hagg (by simp)
      · rw [if_neg hq] at hagg
        rw [Bool.not_eq_true, Bool.or_eq_false_iff] at hq
        obtain ⟨h1, _⟩ := hq
        have hr : { name := filenameText k ++ "-styles.mjs", files := rec.files } = agg :=
          Option.some.inj hagg
        have hfa : rec.files = agg.files := congrArg Aggregate.files hr
        refine ⟨rfl, ?_⟩
        intro hf
        rw [hfa.trans hf] at h1
        exact absurd h1 (by simp)

/-- Witness for the amended claim C9 at a concrete input: the loader
present for an emitted record yields exactly its style list. -/
theorem directory_loader_semantics_witness :
    loaderResult { name := "a-styles.mjs", files := ["r"] } = JSVal.list ["r"]
      ∧ (["r"] : List String) ≠ [] :=
  (directory_loader_semantics [("a", { files := ["r"], inBundle := some true })] "a"
    (by decide)).2 { name := "a-styles.mjs", files := ["r"] } (by decide)

/-- Keyed record update leaves lookups under other keys unchanged. -/
theorem lookup_updateRecord_ne (m : List (String × StyleRecord)) (k : String)
    (f : StyleRecord → StyleRecord) (j : String) (h : (j == k) = false) :
    (updateRecord m k f).lookup j = m.lookup j := by
  induction m with
  | nil => rfl
  | cons p t ih =>
    obtain ⟨a, r⟩ := p
    rw [updateRecord]
    by_cases ha : (a == k) = true
    · have hak : a = k := by simpa using ha
      have hja : (j == a) = false := by
        subst hak
        exact h
      rw [if_pos ha, List.lookup_cons, List.lookup_cons, hja]
      exact ih
    · rw [if_neg ha, List.lookup_cons, List.lookup_cons]
      cases hja : (j == a) with
      | true => rfl
      | false => exact ih

/-- Keyed record update rewrites the looked-up value under the key. -/
theorem lookup_updateRecord_eq (m : List (String × StyleRecord)) (k : String)
    (f : StyleRecord → StyleRecord) (rec : StyleRecord) (h : m.lookup k = some rec) :
    (updateRecord m k f).lookup k = some (f rec) := by
  induction m with
  | nil => exact absurd h (by simp)
  | cons p t ih =>
    obtain ⟨a, r⟩ := p
    rw [updateRecord]
    rw [List.lookup_cons] at h
    by_cases ha : (a == k) = true
    · have hak : a = k := by simpa using ha
      have hka : (k == a) = true := by simp [hak]
      rw [hka] at h
      obtain rfl : r = rec := Option.some.inj h
      rw [if_pos ha, List.lookup_cons, hka]
    · have hka : (k == a) = false := by
        rcases hx : (k == a) with _ | _
        · rfl
        · exact absurd (by simp [(by simpa using hx : k = a)] : (a == k) = true) ha
      rw [hka] at h
      rw [if_neg ha, List.lookup_cons, hka]
      exact ih h

/-- A StyleRecord whose inBundle already holds a value is unchanged by
rebuilding it with that value. -/
theorem styleRecord_eta (rec : StyleRecord) (b : Bool) (hb : rec.inBundle = some b) :
    ({ files := rec.files, inBundle := some b } : StyleRecord) = rec := by
  cases rec
  rw [← hb]

/-- Latch preservation across the whole per-chunk fold: a record whose
inBundle already holds a value is returned unchanged by any sequence of
module observations. -/
theorem lookup_fold_observe_of_some (relOf : String → String) (isVue : String → Bool)
    (isEntry : Bool) (mods : List String) (cssMap : List (String × StyleRecord))
    (k : String) (rec : StyleRecord) (b : Bool)
    (h : cssMap.lookup k = some rec) (hb : rec.inBundle = some b) :
    (mods.foldl (observeModuleId relOf isVue isEntry) cssMap).lookup k = some rec := by
  induction mods generalizing cssMap with
  | nil => exact h
  | cons m t ih =>
    rw [List.foldl_cons]
    apply ih
    by_cases hrel : (relOf m == k) = true
    · have hrel' : relOf m = k := by simpa using hrel
      rw [observeModuleId, hrel', lookup_updateRecord_eq cssMap k _ rec h, hb,
        Option.getD_some, styleRecord_eta rec b hb]
    · have hkr : (k == relOf m) = false := by
        rcases hx : (k == relOf m) with _ | _
        · rfl
        · exact absurd (by simp [(by simpa using hx : k = relOf m)] : (relOf m == k) = true)
            (by simpa using hrel)
      rw [observeModuleId, lookup_updateRecord_ne cssMap (relOf m) _ k hkr]
      exact h

/-- First observation across the per-chunk fold: a record whose inBundle
is still unset receives the value computed at the first module of the
chunk whose relative path is the record key, and keeps it for the rest of
the fold. -/
theorem lookup_fold_observe_first (relOf : String → String) (isVue : String → Bool)
    (isEntry : Bool) (mods : List String) (cssMap : List (String × StyleRecord))
    (k : String) (rec : StyleRecord) (m : String)
    (h : cssMap.lookup k = some rec) (hn : rec.inBundle = none)
    (hf : mods.find? (fun x => relOf x == k) = some m) :
    (mods.foldl (observeModuleId relOf isVue isEntry) cssMap).lookup k
      = some { rec with inBundle := some ((isVue m && !(relOf m == "")) || isEntry) } := by
  induction mods generalizing cssMap with
  | nil => exact absurd hf (by simp)
  | cons x t ih =>
    rw [List.foldl_cons]
    by_cases hx : (relOf x == k) = true
    · simp only [List.find?, hx] at hf
      obtain rfl : x = m := Option.some.inj hf
      have hrel : relOf x = k := by simpa using hx
      have h2 : (observeModuleId relOf isVue isEntry cssMap x).lookup k
          = some { rec with inBundle := some ((isVue x && !(relOf x == "")) || isEntry) } := by
        rw [observeModuleId, hrel, lookup_updateRecord_eq cssMap k _ rec h]
        simp [hn]
      exact lookup_fold_observe_of_some relOf isVue isEntry t _ k _
        ((isVue x && !(relOf x == "")) || isEntry) h2 rfl
    · have hxf : (relOf x == k) = false := by simpa using hx
      simp only [List.find?, hxf] at hf
      have hkr : (k == relOf x) = false := by
        rcases hy : (k == relOf x) with _ | _
        · rfl
        · exact absurd (by simp [(by simpa using hy : k = relOf x)] : (relOf x == k) = true)
            (by simpa using hx)
      apply ih _ ?_ hf
      rw [observeModuleId, lookup_updateRecord_ne cssMap (relOf x) _ k hkr]
      exact h

/-- Claim C7: during the server pass, the chunk-rendering step assigns a
StyleRecord inBundle field only at the first observation of a module whose
relative path is the record key — the value is true when the module is a
Vue file with a nonempty build-root-relative path or the chunk is the
entry chunk — and a record whose inBundle already holds a value (true or
false) is never changed by any further observation in the chunk. -/
theorem inBundle_latch (relOf : String → String) (isVue : String → Bool) (entry : String)
    (cssMap : List (String × StyleRecord)) (chunk : Chunk) (k : String) (rec : StyleRecord) :
    (∀ b, cssMap.lookup k = some rec → rec.inBundle = some b →
      (renderChunkServer relOf isVue entry cssMap chunk).lookup k = some rec)
      ∧ (∀ m, cssMap.lookup k = some rec → rec.inBundle = none →
        (chunkModuleIds chunk).find? (fun x => relOf x == k) = some m →
        (renderChunkServer relOf isVue entry cssMap chunk).lookup k
          = some { rec with
              inBundle := some ((isVue m && !(relOf m == ""))
                || (chunk.facadeModuleId == some entry)) }) := by
  constructor
  · intro b h hb
    exact lookup_fold_observe_of_some relOf isVue (chunk.facadeModuleId == some entry)
      (chunkModuleIds chunk) cssMap k rec b h hb
  · intro m h hn hf
    exact lookup_fold_observe_first relOf isVue (chunk.facadeModuleId == some entry)
      (chunkModuleIds chunk) cssMap k rec m h hn hf

/-- Witness for claim C7 at a concrete input: a record latched to true
stays true when its module is observed again in the entry chunk. -/
theorem inBundle_latch_witness :
    (renderChunkServer (fun s => s) (fun _ => true) "e"
        [("m", { files := [], inBundle := some true })]
        { facadeModuleId := some "e", moduleIds := ["m"] }).lookup "m"
      = some { files := [], inBundle := some true } :=
  (inBundle_latch (fun s => s) (fun _ => true) "e"
    [("m", { files := [], inBundle := some true })]
    { facadeModuleId := some "e", moduleIds := ["m"] } "m"
    { files := [], inBundle := some true }).1 true (by decide) rfl

/-- Transport of the warn-once invariant along equal warn fields. -/
theorem warnInv_of_fields (a b : BuildState) (ht : b.warnTrace = a.warnTrace)
    (hc : b.warnCache = a.warnCache) (h : WarnInv a) : WarnInv b := by
  rw [WarnInv, ht, hc]
  exact h

/-- Appending one unseen identifier to both the warn trace and the warn
cache preserves the warn-once invariant. -/
theorem warnInv_append (a : BuildState) (file msg : String)
    (hmem : file ∉ a.warnCache) (h : WarnInv a) (b : BuildState)
    (ht : b.warnTrace = a.warnTrace ++ [(file, msg)])
    (hc : b.warnCache = a.warnCache ++ [file]) : WarnInv b := by
  rw [WarnInv, ht, hc]
  constructor
  · rw [List.map_append]
    simp only [List.map_cons, List.map_nil]
    rw [← List.concat_eq_append]
    exact List.Nodup.concat (fun hk => hmem (h.2 file hk)) h.1
  · intro k hk
    rw [List.map_append] at hk
    rcases List.mem_append.mp hk with hk | hk
    · exact List.mem_append.mpr (Or.inl (h.2 k hk))
    · have : k = file := by simpa using hk
      subst this
      exact List.mem_append.mpr (Or.inr (by simp))

/-- The graph-loop body warns at most on a cache miss and then records the
identifier, so it preserves the warn-once invariant. -/
theorem warnInv_processGraphFile (ctx : TransformCtx) (id file : String) (ls : LoopState)
    (h : WarnInv ls.st) : WarnInv (processGraphFile ctx id ls file).st := by
  simp only [processGraphFile]
  by_cases h1 : ((resolve2 ctx.resolve file id).isNone
      || (resolve2 ctx.resolve (file ++ "?inline&used") id).isNone) = true
  · rw [if_pos h1]
    by_cases h2 : ls.st.warnCache.contains file = true
    · rw [if_pos h2]
      exact h
    · rw [if_neg h2]
      have hmem : file ∉ ls.st.warnCache := fun hm => h2 (by simpa using hm)
      exact warnInv_append ls.st file (warnMsg file) hmem h _ rfl rfl
  · rw [if_neg h1]
    by_cases h3 : ls.emittedIds.contains file = true
    · rw [if_pos h3]
      exact h
    · rw [if_neg h3]
      exact warnInv_of_fields ls.st _ rfl rfl h

/-- The body acting on a resolved import specifier preserves the
warn-once invariant. -/
theorem warnInv_processResolvedImport (ctx : TransformCtx) (id specifier rid : String)
    (ls : LoopState) (h : WarnInv ls.st) :
    WarnInv (processResolvedImport ctx id specifier rid ls).st := by
  simp only [processResolvedImport]
  by_cases h1 : (ctx.resolve (rid ++ "?inline&used") none).isNone = true
  · rw [if_pos h1]
    by_cases h2 : ls.st.warnCache.contains rid = true
    · rw [if_pos h2]
      exact h
    · rw [if_neg h2]
      have hmem : rid ∉ ls.st.warnCache := fun hm => h2 (by simpa using hm)
      exact warnInv_append ls.st rid (warnMsg specifier) hmem h _ rfl rfl
  · rw [if_neg h1]
    by_cases h3 : ls.emittedIds.contains rid = true
    · rw [if_pos h3]
      exact h
    · rw [if_neg h3]
      exact warnInv_of_fields ls.st _ rfl rfl h

/-- The static-import-loop body preserves the warn-once invariant. -/
theorem warnInv_processStaticImport (ctx : TransformCtx) (id specifier : String)
    (ls : LoopState) (h : WarnInv ls.st) :
    WarnInv (processStaticImport ctx id ls specifier).st := by
  simp only [processStaticImport]
  by_cases h0 : (ctx.specQueryType specifier != some "style"
      && !(strEndsWith specifier ".css")) = true
  · rw [if_pos h0]
    exact h
  · rw [if_neg h0]
    cases hres : ctx.resolve specifier (some id) with
    | none => exact h
    | some rid => exact warnInv_processResolvedImport ctx id specifier rid ls h

/-- The whole graph loop preserves the warn-once invariant. -/
theorem warnInv_foldl_graph (ctx : TransformCtx) (id : String) (files : List String)
    (ls : LoopState) (h : WarnInv ls.st) :
    WarnInv (files.foldl (processGraphFile ctx id) ls).st := by
  induction files generalizing ls with
  | nil => exact h
  | cons f t ih => exact ih _ (warnInv_processGraphFile ctx id f ls h)

/-- The whole static-import loop preserves the warn-once invariant. -/
theorem warnInv_foldl_static (ctx : TransformCtx) (id : String) (specs : List String)
    (ls : LoopState) (h : WarnInv ls.st) :
    WarnInv (specs.foldl (processStaticImport ctx id) ls).st := by
  induction specs generalizing ls with
  | nil => exact h
  | cons s t ih => exact ih _ (warnInv_processStaticImport ctx id s ls h)

/-- One server-pass transform call preserves the warn-once invariant. -/
theorem warnInv_transformServer (ctx : TransformCtx) (st : BuildState)
    (id code pathname : String) (qMacro qNuxtComponent : Bool) (st2 : BuildState)
    (h : WarnInv st)
    (he : transformServer ctx st id code pathname qMacro qNuxtComponent = some st2) :
    WarnInv st2 := by
  simp only [transformServer] at he
  by_cases g1 : (!((ctx.clientCSSMap.lookup id).isSome
      || isIslandPath ctx.islands pathname)) = true
  · rw [if_pos g1] at he
    exact absurd he (by simp)
  · rw [if_neg g1] at he
    by_cases g2 : (qMacro || qNuxtComponent) = true
    · rw [if_pos g2] at he
      exact absurd he (by simp)
    · rw [if_neg g2] at he
      by_cases g3 : (!(isIslandPath ctx.islands pathname)
          && inlineDisallowedFor ctx.shouldInline id) = true
      · rw [if_pos g3] at he
        exact absurd he (by simp)
      · rw [if_neg g3] at he
        obtain rfl := (Option.some.inj he).symm
        by_cases g4 : supportedFile pathname = true
        · rw [if_pos g4]
          exact warnInv_of_fields _ _ rfl rfl
            (warnInv_foldl_static ctx id (ctx.staticImports code) _
              (warnInv_foldl_graph ctx id _ _ h))
        · rw [if_neg g4]
          exact warnInv_of_fields _ _ rfl rfl (warnInv_foldl_graph ctx id _ _ h)

/-- A whole server pass preserves the warn-once invariant. -/
theorem warnInv_runTransforms (ctx : TransformCtx) (inputs : List ModuleInput)
    (st : BuildState) (h : WarnInv st) : WarnInv (runTransforms ctx st inputs) := by
  induction inputs generalizing st with
  | nil => exact h
  | cons m t ih =>
    rw [runTransforms]
    cases he : transformServer ctx st m.id m.code m.pathname m.qMacro m.qNuxtComponent with
    | none => exact ih st h
    | some st2 =>
      exact ih st2 (warnInv_transformServer ctx st m.id m.code m.pathname m.qMacro
        m.qNuxtComponent st2 h he)

/-- Claim C6: across a whole server pass of one plugin instance (the only
warn sites of the server mode are the two loops of `transform`, both
guarded by the instance-lifetime warnCache), the sequence of warned
identifiers contains no duplicate: at most one warning is emitted per
unique unresolved CSS file identifier, however many consuming modules
reference it and however many times its resolution fails. -/
theorem warn_once_per_identifier (ctx : TransformCtx) (inputs : List ModuleInput) :
    ((runTransforms ctx initialBuildState inputs).warnTrace.map Prod.fst).Nodup :=
  (warnInv_runTransforms ctx inputs initialBuildState
    ⟨List.nodup_nil, by simp [initialBuildState]⟩).1

end SSRStyles
